import Mathlib

/-!
Shallow embedding of the risk-gated trading control loop
(`backend/risk_manager.py`, `backend/executor.py`, `backend/auto_agent.py`).

Money, prices and percentages are modelled as exact rationals; calendar
dates as integers (one unit per day).  Python exceptions (`TypeError`
from `None - float`, `ZeroDivisionError`) are modelled by `Option`:
a `none` result means the call raised instead of returning.
-/

namespace TradingBot

/-- Round-half-to-even on rationals, the semantics of Python's builtin
`round` applied to an exact value. -/
def roundHalfEven (x : ℚ) : ℤ :=
  let f := ⌊x⌋
  let r := x - f
  if r < 1/2 then f
  else if 1/2 < r then f + 1
  else if f % 2 = 0 then f else f + 1

/-- Python `round(x, n)`: scale by `10^n`, round half to even, scale back. -/
def pyRound (n : ℕ) (x : ℚ) : ℚ :=
  (roundHalfEven (x * 10 ^ n) : ℚ) / 10 ^ n

/-- Python `int(x)`: truncation toward zero. -/
def truncQ (x : ℚ) : ℤ :=
  if 0 ≤ x then ⌊x⌋ else -⌊-x⌋

/-- Tests whether `needle` occurs as a contiguous run inside the character list
(Python's `in` on strings). -/
def hasSubstr (needle : List Char) : List Char → Bool
  | [] => needle.isPrefixOf []
  | c :: rest => needle.isPrefixOf (c :: rest) || hasSubstr needle rest

/-- Embeds `"/" in symbol or "USD" in symbol`: the crypto / fractional-shares
test used by `calculate_position_size` (risk_manager.py line 103). -/
def is_crypto_symbol (sym : String) : Bool :=
  hasSubstr "/".toList sym.toList || hasSubstr "USD".toList sym.toList

/-- The mutable state of `RiskManager` (risk_manager.py lines 27-39).
`open_positions` is an association list with unique keys, mirroring the
Python dict. -/
structure RiskState where
  initial_capital : ℚ
  max_daily_loss_pct : ℚ
  max_position_size_pct : ℚ
  max_stop_loss_pct : ℚ
  daily_start_capital : Option ℚ
  daily_pnl : ℚ
  last_reset_date : ℤ
  open_positions : List (String × ℚ)
  deriving DecidableEq, Repr

/-- The state built by `RiskManager.__init__` with no environment
overrides: defaults 10000 / 2% / 5% / 3%, construction day 0. -/
def defaultState : RiskState :=
  { initial_capital := 10000
    max_daily_loss_pct := 2
    max_position_size_pct := 5
    max_stop_loss_pct := 3
    daily_start_capital := none
    daily_pnl := 0
    last_reset_date := 0
    open_positions := [] }

/-- Embeds `get_current_capital` (lines 50-54): baseline plus daily P&L if a
baseline exists, else the initial capital. -/
def get_current_capital (s : RiskState) : ℚ :=
  match s.daily_start_capital with
  | some d => d + s.daily_pnl
  | none => s.initial_capital

/-- Embeds `reset_daily_limits` (lines 41-48): on a strict date advance, take a
fresh capital baseline, zero the daily P&L and record the date. -/
def reset_daily_limits (today : ℤ) (s : RiskState) : RiskState :=
  if s.last_reset_date < today then
    { s with daily_start_capital := some (get_current_capital s)
             daily_pnl := 0
             last_reset_date := today }
  else s

/-- Structured rejection / acceptance reasons standing for the formatted
message strings of `can_trade` and `validate_trade`. -/
inductive TradeReason : Type
  | dailyLossLimit (lossPct maxPct : ℚ)
  | tradingAllowed
  | positionSizeExceeds (posPct maxPct : ℚ)
  | insufficientCapital (capital positionValue : ℚ)
  | tradeValidated
  deriving DecidableEq, Repr

/-- Embeds `can_trade` (lines 56-70).  Returns `none` when the Python code
raises: `TypeError` if `daily_start_capital` is still `None` after the
reset, `ZeroDivisionError` if it is zero.  Second component is the
post-call state (the embedded `reset_daily_limits` mutation). -/
def can_trade (today : ℤ) (s : RiskState) : Option (Bool × TradeReason) × RiskState :=
  let s1 := reset_daily_limits today s
  match s1.daily_start_capital with
  | none => (none, s1)
  | some d =>
    if d = 0 then (none, s1)
    else
      let current_capital := get_current_capital s1
      let daily_loss_pct := (d - current_capital) / d * 100
      if s1.max_daily_loss_pct ≤ daily_loss_pct then
        (some (false, .dailyLossLimit daily_loss_pct s1.max_daily_loss_pct), s1)
      else
        (some (true, .tradingAllowed), s1)

/-- The Kelly fraction of `calculate_position_size` (lines 89-94):
`(1.5·p − (1−p)) / 1.5`, clamped to `[0, 0.25]`. -/
def kelly_fraction (confidence : ℚ) : ℚ :=
  let win_prob := confidence
  let loss_prob := 1 - win_prob
  let expected_return : ℚ := 3/2
  max 0 (min ((expected_return * win_prob - loss_prob) / expected_return) (1/4))

/-- Embeds `calculate_position_size` (lines 72-110): Kelly value capped by the
maximum position value; crypto-like symbols round shares to 4 decimals,
stock symbols truncate to an integer.  Returns `(shares, shares·price)`. -/
def calculate_position_size (s : RiskState) (symbol : String)
    (signal_confidence current_price : ℚ) : ℚ × ℚ :=
  let current_capital := get_current_capital s
  let kf := kelly_fraction signal_confidence
  let max_position_value := current_capital * (s.max_position_size_pct / 100)
  let kelly_position_value := current_capital * kf
  let position_value := min kelly_position_value max_position_value
  let shares : ℚ :=
    if is_crypto_symbol symbol then pyRound 4 (position_value / current_price)
    else (truncQ (position_value / current_price) : ℚ)
  (shares, shares * current_price)

/-- Embeds `validate_trade` (lines 112-143): the gate, then for buys the
position-size-percentage check, then the sufficient-capital check.
`none` models an exception escaping (`can_trade` raising, or the
percentage division by a zero capital). -/
def validate_trade (today : ℤ) (s : RiskState) (symbol : String)
    (shares price : ℚ) (side : String) : Option (Bool × TradeReason) × RiskState :=
  match can_trade today s with
  | (none, s1) => (none, s1)
  | (some (allowed, reason), s1) =>
    if !allowed then (some (false, reason), s1)
    else if side = "buy" then
      let position_value := shares * price
      let current_capital := get_current_capital s1
      if current_capital = 0 then (none, s1)
      else
        let position_pct := position_value / current_capital * 100
        if s1.max_position_size_pct < position_pct then
          (some (false, .positionSizeExceeds position_pct s1.max_position_size_pct), s1)
        else if current_capital < position_value then
          (some (false, .insufficientCapital current_capital position_value), s1)
        else (some (true, .tradeValidated), s1)
    else (some (true, .tradeValidated), s1)

/-- Embeds `calculate_stop_loss` (lines 145-163): entry shifted down
(`side == 'buy'`) or up (any other side) by `max_stop_loss_pct` percent,
rounded to 2 decimals. -/
def calculate_stop_loss (s : RiskState) (entry_price : ℚ) (side : String) : ℚ :=
  if side = "buy" then
    pyRound 2 (entry_price * (1 - s.max_stop_loss_pct / 100))
  else
    pyRound 2 (entry_price * (1 + s.max_stop_loss_pct / 100))

/-- Python dict insertion: replace the value at an existing key, else
append the new binding. -/
def dictSet (ps : List (String × ℚ)) (sym : String) (v : ℚ) : List (String × ℚ) :=
  match ps with
  | [] => [(sym, v)]
  | (k, w) :: rest => if k = sym then (k, v) :: rest else (k, w) :: dictSet rest sym v

/-- Embeds `update_position` (lines 165-167). -/
def update_position (s : RiskState) (symbol : String) (position_value : ℚ) : RiskState :=
  { s with open_positions := dictSet s.open_positions symbol position_value }

/-- Embeds `close_position` (lines 169-174): drop the symbol from the open map
and accumulate the realized P&L. -/
def close_position (s : RiskState) (symbol : String) (pnl : ℚ) : RiskState :=
  { s with open_positions := s.open_positions.filter (fun kv => kv.1 ≠ symbol)
           daily_pnl := s.daily_pnl + pnl }

/-- Embeds `get_portfolio_exposure` (lines 176-183): `none` models the
`ZeroDivisionError` when positions exist but capital is zero. -/
def get_portfolio_exposure (s : RiskState) : Option ℚ :=
  if s.open_positions.isEmpty then some 0
  else
    let total := (s.open_positions.map (fun kv => kv.2)).sum
    let cc := get_current_capital s
    if cc = 0 then none else some (total / cc * 100)

/-- The snapshot dictionary returned by `get_risk_metrics`. -/
structure RiskMetrics where
  current_capital : ℚ
  daily_pnl : ℚ
  daily_loss_pct : ℚ
  daily_loss_limit : ℚ
  portfolio_exposure_pct : ℚ
  open_positions : ℕ
  can_trade : Bool
  deriving DecidableEq, Repr

/-- Live-equity reconciliation prologue of `get_risk_metrics`
(lines 190-200): seed `daily_start_capital` with the live equity when it
is still unset, run the daily reset, re-seed if somehow still unset,
then recompute `daily_pnl` against the (possibly new) baseline. -/
def metrics_sync_equity (today : ℤ) (s : RiskState) : Option ℚ → RiskState
  | none => s
  | some e =>
    let sa := if s.daily_start_capital = none
              then { s with daily_start_capital := some e } else s
    let sb := reset_daily_limits today sa
    let sc := if sb.daily_start_capital = none
              then { sb with daily_start_capital := some e } else sb
    match sc.daily_start_capital with
    | some d => { sc with daily_pnl := e - d }
    | none => sc

/-- Snapshot epilogue of `get_risk_metrics` (lines 202-218), taking the
position-synced state and the capital computed before the position sync.
`none` models its exception exits: `TypeError` on a `None` baseline,
`ZeroDivisionError` on a zero baseline, a zero capital with open
positions, or a raise out of the final embedded `can_trade`. -/
def metrics_snapshot (today : ℤ) (s2 : RiskState) (cc : ℚ) :
    Option RiskMetrics × RiskState :=
  match s2.daily_start_capital with
  | none => (none, s2)
  | some d =>
    if d = 0 then (none, s2)
    else
      let dlp := (d - cc) / d * 100
      match get_portfolio_exposure s2 with
      | none => (none, s2)
      | some expo =>
        match can_trade today s2 with
        | (none, s3) => (none, s3)
        | (some (ct, _), s3) =>
          (some { current_capital := cc
                  daily_pnl := s2.daily_pnl
                  daily_loss_pct := dlp
                  daily_loss_limit := s2.max_daily_loss_pct
                  portfolio_exposure_pct := expo
                  open_positions := s2.open_positions.length
                  can_trade := ct }, s3)

/-- Embeds `get_risk_metrics` (lines 185-218): optional live-equity sync
(which may seed `daily_start_capital` without any date advance), daily
reset, live-position sync, then the snapshot. -/
def get_risk_metrics (today : ℤ) (s : RiskState)
    (live_positions : Option (List (String × ℚ))) (current_equity : Option ℚ) :
    Option RiskMetrics × RiskState :=
  let s1 := metrics_sync_equity today s current_equity
  let cc := get_current_capital s1
  let s2 :=
    match live_positions with
    | some lp => { s1 with open_positions := lp }
    | none => s1
  metrics_snapshot today s2 cc

/-! ### Executor layer (`backend/executor.py`) -/

/-- Result statuses of `TradingExecutor.execute_trade`. -/
inductive ExecStatus : Type
  | success
  | skipped
  | rejected
  | error
  deriving DecidableEq, Repr

/-- The message payload accompanying an execution status. -/
inductive ExecMessage : Type
  | tradingNotActive
  | holdSignal
  | priceUnavailable
  | positionTooSmall
  | validationFailed (r : TradeReason)
  | orderFailed
  | orderPlaced (shares position_value stop_loss : ℚ)
  deriving DecidableEq, Repr

/-- A `{"status": ..., "message": ...}` dictionary from the executor. -/
structure ExecResult where
  status : ExecStatus
  msg : ExecMessage
  deriving DecidableEq, Repr

/-- Embeds `TradingExecutor.execute_trade` (executor.py lines 60-150).
Externals are oracles: `price` is what `get_current_price` returned
(`none` for a failed fetch; Python also treats a `0.0` price as missing
via `if not current_price`), `order_ok` is whether `submit_order`
succeeded.  `none` models an exception escaping the call, which happens
exactly when the embedded `validate_trade` raises (the submission
itself is wrapped in `try`/`except`).  Second component: post-call
risk state. -/
def execute_trade (today : ℤ) (is_trading : Bool) (s : RiskState)
    (symbol signal : String) (confidence : ℚ) (price : Option ℚ)
    (order_ok : Bool) : Option ExecResult × RiskState :=
  if ¬is_trading then (some ⟨.error, .tradingNotActive⟩, s)
  else if signal = "Hold" then (some ⟨.skipped, .holdSignal⟩, s)
  else
    match price with
    | none => (some ⟨.error, .priceUnavailable⟩, s)
    | some p =>
      if p = 0 then (some ⟨.error, .priceUnavailable⟩, s)
      else
        let side := if signal = "Buy" then "buy" else "sell"
        let sized := calculate_position_size s symbol confidence p
        if sized.1 = 0 then (some ⟨.skipped, .positionTooSmall⟩, s)
        else
          match validate_trade today s symbol sized.1 p side with
          | (none, s1) => (none, s1)
          | (some (valid, reason), s1) =>
            if ¬valid then (some ⟨.rejected, .validationFailed reason⟩, s1)
            else
              let stop := calculate_stop_loss s1 p side
              if order_ok then
                (some ⟨.success, .orderPlaced sized.1 sized.2 stop⟩,
                 update_position s1 symbol sized.2)
              else (some ⟨.error, .orderFailed⟩, s1)

/-! ### Control loop (`backend/auto_agent.py`) -/

/-- Observable events of one `run_cycle` execution, in emission order.
They mirror the phase structure of auto_agent.py lines 50-136. -/
inductive Event : Type
  | monitorStart
  | stopLossClose (sym : String)
  | takeProfitClose (sym : String)
  | rebalanceCheck
  | gateChecked
  | tradingSkipped (r : TradeReason)
  | analyzing (sym : String)
  | held (sym : String)
  | onChainSwap (sym : String)
  | tradeResult (sym : String) (st : ExecStatus)
  | lowGasWarning
  deriving DecidableEq, Repr

/-- A live position as the risk monitor sees it.  `venue_close` is the
oracle for `executor.close_position`: `some pnl` when the venue close
succeeded with that realized P&L (which then updates the risk state),
`none` when it failed (caught inside the executor, no state change). -/
structure LivePosition where
  symbol : String
  pnl_pct : ℚ
  venue_close : Option ℚ
  deriving DecidableEq, Repr

/-- One position's turn in `monitor_risk` (auto_agent.py lines 144-161):
close on stop-loss breach (`pnl_pct ≤ −max_stop_loss_pct`) or take-profit
(`pnl_pct ≥ 10`). -/
def monitor_position (s : RiskState) (p : LivePosition) : List Event × RiskState :=
  if p.pnl_pct ≤ -s.max_stop_loss_pct then
    ([.stopLossClose p.symbol],
     match p.venue_close with
     | some realized => close_position s p.symbol realized
     | none => s)
  else if 10 ≤ p.pnl_pct then
    ([.takeProfitClose p.symbol],
     match p.venue_close with
     | some realized => close_position s p.symbol realized
     | none => s)
  else ([], s)

/-- The full risk-monitor pass over the venue's live positions.  The
whole body runs inside `try`/`except`, so it never faults the cycle. -/
def monitor_positions (positions : List LivePosition) (s : RiskState) :
    List Event × RiskState :=
  match positions with
  | [] => ([], s)
  | p :: rest =>
    let step := monitor_position s p
    let tail := monitor_positions rest step.2
    (step.1 ++ tail.1, tail.2)

/-- One asset of the per-asset pass, with its external observations:
the aggregated sentiment label from the signal source, the price the
executor would fetch, and whether order submission would succeed. -/
structure AssetInput where
  symbol : String
  type_is_crypto : Bool
  sentiment : String
  price : Option ℚ
  order_ok : Bool
  deriving DecidableEq, Repr

/-- The decision rule of auto_agent.py lines 89-98: Bullish sentiment
together with the (fixed) bullish technical signal gives Buy at 0.85;
Bearish gives Sell at 0.75; anything else holds. -/
def signalOf (sentiment : String) : String × ℚ :=
  let technical_signal := "Buy"
  if sentiment = "Bullish" ∧ technical_signal = "Buy" then ("Buy", 85/100)
  else if sentiment = "Bearish" then ("Sell", 75/100)
  else ("Hold", 0)

/-- Fixed inputs of one cycle: the date, the loop/executor flags, the
wallet connection, the monitor's view of live positions, the watch-list
with its per-asset observations, and the gas balance read at the end
(`get_balance().get("balance_eth", 0)`, `0` when the read failed). -/
structure CycleEnv where
  today : ℤ
  is_running : Bool
  is_trading : Bool
  has_w3 : Bool
  swap_success : Bool
  monitor_positions_data : List LivePosition
  assets : List AssetInput
  balance_eth : ℚ
  deriving Repr

/-- One asset's turn in the per-asset pass (auto_agent.py lines 74-133).
The first component is `none` when the iteration raises and aborts the
cycle: that happens only for the `tx['tx_hash']` lookup after a failed
on-chain swap, or an exception escaping `execute_trade`. -/
def processAsset (env : CycleEnv) (a : AssetInput) (s : RiskState) :
    Option (List Event) × RiskState :=
  let sig := signalOf a.sentiment
  if sig.1 = "Hold" then (some [.analyzing a.symbol, .held a.symbol], s)
  else
    let swapEvents : Option (List Event) :=
      if a.type_is_crypto ∧ env.has_w3 then
        if env.swap_success then some [.onChainSwap a.symbol] else none
      else some []
    match swapEvents with
    | none => (none, s)
    | some swapEvs =>
      match execute_trade env.today env.is_trading s a.symbol sig.1 sig.2
              a.price a.order_ok with
      | (none, s1) => (none, s1)
      | (some r, s1) =>
        (some ([.analyzing a.symbol] ++ swapEvs ++ [.tradeResult a.symbol r.status]), s1)

/-- The per-asset pass: fold `processAsset` over the watch-list,
breaking out when `is_running` was cleared, aborting the whole pass
when one iteration raises. -/
def processAssets (env : CycleEnv) : List AssetInput → RiskState →
    Option (List Event) × RiskState
  | [], s => (some [], s)
  | a :: rest, s =>
    if ¬env.is_running then (some [], s)
    else
      match processAsset env a s with
      | (none, s1) => (none, s1)
      | (some evs, s1) =>
        match processAssets env rest s1 with
        | (none, s2) => (none, s2)
        | (some evs2, s2) => (some (evs ++ evs2), s2)

/-- Embeds `AutoAgent.run_cycle` (auto_agent.py lines 50-136): risk monitor,
rebalance check, daily gate, per-asset pass, low-gas check.  `none`
models an exception escaping the cycle (to be caught by the loop). -/
def run_cycle (env : CycleEnv) (s : RiskState) : Option (List Event) × RiskState :=
  let monitored := monitor_positions env.monitor_positions_data s
  let mEvs := Event.monitorStart :: monitored.1
  let rEvs := [Event.rebalanceCheck]
  match can_trade env.today monitored.2 with
  | (none, s2) => (none, s2)
  | (some (allowed, reason), s2) =>
    if ¬allowed then
      (some (mEvs ++ rEvs ++ [.gateChecked, .tradingSkipped reason]), s2)
    else
      match processAssets env env.assets s2 with
      | (none, s3) => (none, s3)
      | (some aEvs, s3) =>
        let gasEvs := if env.balance_eth < 1/20 then [Event.lowGasWarning] else []
        (some (mEvs ++ rEvs ++ [.gateChecked] ++ aEvs ++ gasEvs), s3)

/-- Phase index of an event inside a cycle: risk monitor (0), rebalance
(1), daily gate (2), per-asset / execution (3). -/
def phase : Event → ℕ
  | .monitorStart => 0
  | .stopLossClose _ => 0
  | .takeProfitClose _ => 0
  | .rebalanceCheck => 1
  | .gateChecked => 2
  | .tradingSkipped _ => 2
  | .analyzing _ => 3
  | .held _ => 3
  | .onChainSwap _ => 3
  | .tradeResult _ _ => 3
  | .lowGasWarning => 3

/-- Observable events of the outer `start()` loop. -/
inductive LoopEvent : Type
  | cycleCompleted
  | cycleFaulted
  | slept (n : ℕ)
  | halted
  deriving DecidableEq, Repr

/-- Embeds `AutoAgent.start` (auto_agent.py lines 32-43): while the running
flag holds, run one cycle then sleep 60; any exception from the cycle is
caught, logged as a fault, and followed by a 5-unit backoff.  The input
list supplies, for each prospective iteration, the running flag observed
at the loop head and that cycle's environment. -/
def agentLoop : List (Bool × CycleEnv) → RiskState → List LoopEvent × RiskState
  | [], s => ([], s)
  | (running, env) :: rest, s =>
    if ¬running then ([.halted], s)
    else
      match run_cycle env s with
      | (none, s1) =>
        let tail := agentLoop rest s1
        (.cycleFaulted :: .slept 5 :: tail.1, tail.2)
      | (some _, s1) =>
        let tail := agentLoop rest s1
        (.cycleCompleted :: .slept 60 :: tail.1, tail.2)

/-- One public operation on the risk state, for stating state-evolution
invariants across arbitrary call sequences. -/
inductive RiskOp : Type
  | reset
  | canTradeOp
  | validateOp (sym : String) (shares price : ℚ) (side : String)
  | metricsOp (live : Option (List (String × ℚ))) (equity : Option ℚ)
  | updateOp (sym : String) (v : ℚ)
  | closeOp (sym : String) (pnl : ℚ)

/-- The state reached after one operation performed on day `today`. -/
def applyOp (op : RiskOp) (today : ℤ) (s : RiskState) : RiskState :=
  match op with
  | .reset => reset_daily_limits today s
  | .canTradeOp => (can_trade today s).2
  | .validateOp sym sh p side => (validate_trade today s sym sh p side).2
  | .metricsOp live eq => (get_risk_metrics today s live eq).2
  | .updateOp sym v => update_position s sym v
  | .closeOp sym pnl => close_position s sym pnl

/-! ### Helper lemmas -/

/-- Round-half-to-even lands within one half of its argument. -/
lemma abs_roundHalfEven_sub (x : ℚ) : |(roundHalfEven x : ℚ) - x| ≤ 1/2 := by
  have h1 := Int.floor_le x
  have h2 := Int.lt_floor_add_one x
  simp only [roundHalfEven]
  split_ifs with ha hb hc <;> rw [abs_sub_le_iff] <;> push_cast <;>
    constructor <;> linarith

/-- Python rounding perturbs its argument by at most half a unit in the
last kept place. -/
lemma abs_pyRound_sub (n : ℕ) (x : ℚ) : |pyRound n x - x| ≤ 1 / (2 * 10 ^ n) := by
  have hpow : (0:ℚ) < 10 ^ n := by positivity
  have key := abs_roundHalfEven_sub (x * 10 ^ n)
  have hx : pyRound n x - x = ((roundHalfEven (x * 10 ^ n) : ℚ) - x * 10 ^ n) / 10 ^ n := by
    unfold pyRound
    field_simp
    ring
  rw [hx, abs_div, abs_of_pos hpow, div_le_div_iff₀ hpow (by positivity)]
  nlinarith [key]

/-- Upper deviation of Python rounding. -/
lemma pyRound_le (n : ℕ) (x : ℚ) : pyRound n x ≤ x + 1 / (2 * 10 ^ n) := by
  have h := abs_pyRound_sub n x
  rw [abs_sub_le_iff] at h
  linarith [h.1]

/-- Truncation toward zero never exceeds a nonnegative argument. -/
lemma truncQ_le_self {x : ℚ} (hx : 0 ≤ x) : (truncQ x : ℚ) ≤ x := by
  unfold truncQ
  rw [if_pos hx]
  exact Int.floor_le x

/-- Truncation toward zero of a nonnegative argument is nonnegative. -/
lemma truncQ_nonneg {x : ℚ} (hx : 0 ≤ x) : (0:ℚ) ≤ (truncQ x : ℚ) := by
  unfold truncQ
  rw [if_pos hx]
  exact_mod_cast Int.floor_nonneg.2 hx

/-- The clamped Kelly fraction is nonnegative. -/
lemma kelly_fraction_nonneg (c : ℚ) : 0 ≤ kelly_fraction c :=
  le_max_left 0 _

/-- The clamped Kelly fraction never exceeds one quarter. -/
lemma kelly_fraction_le_quarter (c : ℚ) : kelly_fraction c ≤ 1/4 :=
  max_le (by norm_num) (min_le_right _ _)

/-- Without a date advance the daily reset is the identity. -/
lemma reset_daily_limits_id {today : ℤ} {s : RiskState}
    (h : ¬ s.last_reset_date < today) : reset_daily_limits today s = s := by
  unfold reset_daily_limits
  rw [if_neg h]

/-- The reset never changes the configured limit parameters. -/
lemma reset_daily_limits_fields (today : ℤ) (s : RiskState) :
    (reset_daily_limits today s).max_daily_loss_pct = s.max_daily_loss_pct ∧
    (reset_daily_limits today s).max_position_size_pct = s.max_position_size_pct ∧
    (reset_daily_limits today s).max_stop_loss_pct = s.max_stop_loss_pct ∧
    (reset_daily_limits today s).initial_capital = s.initial_capital ∧
    (reset_daily_limits today s).open_positions = s.open_positions := by
  unfold reset_daily_limits
  split_ifs <;> exact ⟨rfl, rfl, rfl, rfl, rfl⟩

/-- The state left behind by `can_trade` is exactly the reset state. -/
lemma can_trade_snd (today : ℤ) (s : RiskState) :
    (can_trade today s).2 = reset_daily_limits today s := by
  unfold can_trade
  rcases h : (reset_daily_limits today s).daily_start_capital with _ | d
  · simp [h]
  · simp only [h]
    split_ifs <;> rfl

/-- The state left behind by `validate_trade` is exactly the reset state. -/
lemma validate_trade_snd (today : ℤ) (s : RiskState) (sym : String)
    (shares price : ℚ) (side : String) :
    (validate_trade today s sym shares price side).2 = reset_daily_limits today s := by
  unfold validate_trade
  rcases h : can_trade today s with ⟨og, s1⟩
  have hs1 : s1 = reset_daily_limits today s := by
    have := can_trade_snd today s
    rw [h] at this
    exact this
  rcases og with _ | ⟨b, r⟩
  · simpa using hs1
  · simp only
    split_ifs <;> simpa using hs1

/-! ### Scenario states used by witnesses -/

/-- A state on its trading day with baseline 10000 and a 250 loss
(spec Scenario B). -/
def stateB : RiskState :=
  { defaultState with daily_start_capital := some 10000, daily_pnl := -250 }

/-- A healthy state on its trading day with baseline 10000 and flat P&L. -/
def stateV : RiskState :=
  { defaultState with daily_start_capital := some 10000 }

/-! ### C9 -/

/-- C9: for every confidence in [0,1], the Kelly fraction computed by
`calculate_position_size` - `(1.5·c − (1−c))/1.5` clamped - lies in
`[0, 0.25]`. -/
theorem kelly_fraction_in_range (c : ℚ) (h0 : 0 ≤ c) (h1 : c ≤ 1) :
    0 ≤ kelly_fraction c ∧ kelly_fraction c ≤ 1/4 :=
  ⟨kelly_fraction_nonneg c, kelly_fraction_le_quarter c⟩

/-- Witness for C9 at confidence 0.85. -/
theorem kelly_fraction_in_range_witness :
    0 ≤ kelly_fraction (17/20) ∧ kelly_fraction (17/20) ≤ 1/4 :=
  kelly_fraction_in_range (17/20) (by norm_num) (by norm_num)

/-! ### C2 -/

/-- C2 counterexample: sizing BTC/USD at confidence 0.85 and price 30000
from the default state (capital 10000, limit 5%) yields a position value
of 501, strictly above the claimed cap of 500: the 4-decimal crypto
rounding of the share count rounds up past the cap. -/
theorem position_value_cap_cex :
    get_current_capital defaultState * (defaultState.max_position_size_pct / 100) <
      (calculate_position_size defaultState "BTC/USD" (85/100) 30000).2 := by
  norm_num [calculate_position_size, defaultState, get_current_capital, kelly_fraction,
    pyRound, roundHalfEven, is_crypto_symbol, hasSubstr]

/-- C2 (amended): with positive capital, nonnegative size limit, positive
price and confidence in [0,1], the returned position value respects
`capital × maxPositionSizePct/100` exactly on the integer (stock) path,
and up to the rounding slack `price/20000` on the 4-decimal crypto path. -/
theorem position_value_bounded (s : RiskState) (sym : String) (conf price : ℚ)
    (hc0 : 0 ≤ conf) (hc1 : conf ≤ 1)
    (hcap : 0 < get_current_capital s) (hpct : 0 ≤ s.max_position_size_pct)
    (hprice : 0 < price) :
    (calculate_position_size s sym conf price).2 ≤
      get_current_capital s * (s.max_position_size_pct / 100)
      + (if is_crypto_symbol sym then price / 20000 else 0) := by
  have hkf0 := kelly_fraction_nonneg conf
  set cap := get_current_capital s with hcapdef
  set kf := kelly_fraction conf with hkfdef
  set mv := cap * (s.max_position_size_pct / 100) with hmv
  set pv := min (cap * kf) mv with hpv
  have hpv0 : 0 ≤ pv := le_min (by positivity) (by positivity)
  have hpvle : pv ≤ mv := min_le_right _ _
  have hq0 : 0 ≤ pv / price := div_nonneg hpv0 hprice.le
  unfold calculate_position_size
  simp only [← hcapdef, ← hkfdef, ← hmv, ← hpv]
  by_cases hcrypto : is_crypto_symbol sym
  · simp only [if_pos hcrypto]
    have hr : pyRound 4 (pv / price) ≤ pv / price + 1 / 20000 := by
      have := pyRound_le 4 (pv / price)
      norm_num at this
      linarith
    have : pyRound 4 (pv / price) * price ≤ (pv / price + 1 / 20000) * price :=
      mul_le_mul_of_nonneg_right hr hprice.le
    have hcancel : (pv / price + 1 / 20000) * price = pv + price / 20000 := by
      field_simp
      ring
    rw [hcancel] at this
    linarith
  · simp only [if_neg hcrypto]
    have htr : (truncQ (pv / price) : ℚ) ≤ pv / price := truncQ_le_self hq0
    have : (truncQ (pv / price) : ℚ) * price ≤ (pv / price) * price :=
      mul_le_mul_of_nonneg_right htr hprice.le
    have hcancel : (pv / price) * price = pv := div_mul_cancel₀ pv hprice.ne'
    rw [hcancel] at this
    linarith

/-- Witness for C2 (amended): spec Scenario A - stock symbol AAPL,
capital 10000, limit 5%, confidence 0.85, price 100. -/
theorem position_value_bounded_witness :
    (calculate_position_size stateV "AAPL" (17/20) 100).2 ≤
      get_current_capital stateV * (stateV.max_position_size_pct / 100)
      + (if is_crypto_symbol "AAPL" then (100:ℚ) / 20000 else 0) :=
  position_value_bounded stateV "AAPL" (17/20) 100 (by norm_num) (by norm_num)
    (by norm_num [get_current_capital, stateV, defaultState])
    (by norm_num [stateV, defaultState]) (by norm_num)

/-! ### C5 -/

/-- C5 counterexample: a long entry at price 0.10 with the default 3%
stop distance rounds `0.097` back up to `0.10`, so the stop price is not
strictly below the entry price. -/
theorem stop_loss_strict_cex :
    ¬ calculate_stop_loss defaultState (1/10) "buy" < 1/10 := by
  norm_num [calculate_stop_loss, defaultState, pyRound, roundHalfEven]

/-- C5 (amended): for a positive entry price and a positive stop
percentage, the pre-rounding stop `entry × (1 ∓ pct/100)` is strictly
below (buy) / above (sell) the entry with distance exactly `pct`% of the
entry; the returned price is that value rounded to 2 decimals, hence
within 0.005 of it (rounding can break strictness, as the
counterexample shows). -/
theorem stop_loss_spec (s : RiskState) (entry : ℚ) (side : String)
    (hentry : 0 < entry) (hpct : 0 < s.max_stop_loss_pct) :
    (calculate_stop_loss s entry "buy" = pyRound 2 (entry * (1 - s.max_stop_loss_pct / 100)) ∧
     entry * (1 - s.max_stop_loss_pct / 100) < entry ∧
     entry - entry * (1 - s.max_stop_loss_pct / 100) = entry * (s.max_stop_loss_pct / 100) ∧
     |calculate_stop_loss s entry "buy" - entry * (1 - s.max_stop_loss_pct / 100)| ≤ 1/200) ∧
    (side ≠ "buy" →
     calculate_stop_loss s entry side = pyRound 2 (entry * (1 + s.max_stop_loss_pct / 100)) ∧
     entry < entry * (1 + s.max_stop_loss_pct / 100) ∧
     entry * (1 + s.max_stop_loss_pct / 100) - entry = entry * (s.max_stop_loss_pct / 100) ∧
     |calculate_stop_loss s entry side - entry * (1 + s.max_stop_loss_pct / 100)| ≤ 1/200) := by
  have hbuy : calculate_stop_loss s entry "buy"
      = pyRound 2 (entry * (1 - s.max_stop_loss_pct / 100)) := by
    unfold calculate_stop_loss
    rw [if_pos rfl]
  have habs2 : ∀ x : ℚ, |pyRound 2 x - x| ≤ 1/200 := by
    intro x
    have := abs_pyRound_sub 2 x
    norm_num at this
    exact this
  refine ⟨⟨hbuy, by nlinarith, by ring, hbuy ▸ habs2 _⟩, ?_⟩
  intro hside
  have hsell : calculate_stop_loss s entry side
      = pyRound 2 (entry * (1 + s.max_stop_loss_pct / 100)) := by
    unfold calculate_stop_loss
    rw [if_neg hside]
  exact ⟨hsell, by nlinarith, by ring, hsell ▸ habs2 _⟩

/-- Witness for C5 (amended) at entry 100 with the default state (3%,
side "sell"): stop prices 97 and 103. -/
theorem stop_loss_spec_witness :
    (calculate_stop_loss defaultState 100 "buy"
       = pyRound 2 (100 * (1 - defaultState.max_stop_loss_pct / 100)) ∧
     (100:ℚ) * (1 - defaultState.max_stop_loss_pct / 100) < 100 ∧
     (100:ℚ) - 100 * (1 - defaultState.max_stop_loss_pct / 100)
       = 100 * (defaultState.max_stop_loss_pct / 100) ∧
     |calculate_stop_loss defaultState 100 "buy"
       - 100 * (1 - defaultState.max_stop_loss_pct / 100)| ≤ 1/200) ∧
    ("sell" ≠ "buy" →
     calculate_stop_loss defaultState 100 "sell"
       = pyRound 2 (100 * (1 + defaultState.max_stop_loss_pct / 100)) ∧
     (100:ℚ) < 100 * (1 + defaultState.max_stop_loss_pct / 100) ∧
     (100:ℚ) * (1 + defaultState.max_stop_loss_pct / 100) - 100
       = 100 * (defaultState.max_stop_loss_pct / 100) ∧
     |calculate_stop_loss defaultState 100 "sell"
       - 100 * (1 + defaultState.max_stop_loss_pct / 100)| ≤ 1/200) :=
  stop_loss_spec defaultState 100 "sell" (by norm_num)
    (by norm_num [defaultState])

/-! ### C1 -/

/-- C1: whenever `can_trade` returns a verdict (rather than raising),
the verdict is `false` exactly when the daily loss percentage
`(dailyStartCapital − currentCapital)/dailyStartCapital × 100`,
computed on the state after the embedded daily reset, is at least
`maxDailyLossPct`; a `false` verdict carries the daily-loss-limit
reason and a `true` verdict carries the trading-allowed reason. -/
theorem can_trade_gate_spec (today : ℤ) (s : RiskState) (b : Bool) (r : TradeReason)
    (h : (can_trade today s).1 = some (b, r)) :
    ∃ d : ℚ, (reset_daily_limits today s).daily_start_capital = some d ∧
      (b = false ↔ s.max_daily_loss_pct ≤
        (d - get_current_capital (reset_daily_limits today s)) / d * 100) ∧
      (b = false → r = .dailyLossLimit
        ((d - get_current_capital (reset_daily_limits today s)) / d * 100)
        s.max_daily_loss_pct) ∧
      (b = true → r = .tradingAllowed) := by
  have hfields := reset_daily_limits_fields today s
  simp only [can_trade] at h
  rcases hd : (reset_daily_limits today s).daily_start_capital with _ | d
  · rw [hd] at h
    simp at h
  · rw [hd] at h
    dsimp only at h
    refine ⟨d, rfl, ?_⟩
    by_cases hz : d = 0
    · rw [if_pos hz] at h
      simp at h
    · rw [if_neg hz] at h
      by_cases hloss : (reset_daily_limits today s).max_daily_loss_pct ≤
          (d - get_current_capital (reset_daily_limits today s)) / d * 100
      · rw [if_pos hloss] at h
        rw [hfields.1] at hloss
        simp only [Option.some.injEq, Prod.mk.injEq] at h
        refine ⟨?_, ?_, ?_⟩
        · simp [← h.1, hloss]
        · intro _
          rw [← h.2, hfields.1]
        · intro hb
          rw [← h.1] at hb
          simp at hb
      · rw [if_neg hloss] at h
        rw [hfields.1] at hloss
        simp only [Option.some.injEq, Prod.mk.injEq] at h
        refine ⟨?_, ?_, ?_⟩
        · constructor
          · intro hb
            rw [← h.1] at hb
            simp at hb
          · intro hle
            exact absurd hle hloss
        · intro hb
          rw [← h.1] at hb
          simp at hb
        · intro _
          rw [← h.2]

/-- Witness for C1: spec Scenario B - baseline 10000, P&L −250, limit
2%: the gate returns `false` with the daily-loss-limit reason at 2.5%. -/
theorem can_trade_gate_spec_witness :
    ∃ d : ℚ, (reset_daily_limits 0 stateB).daily_start_capital = some d ∧
      ((false : Bool) = false ↔ stateB.max_daily_loss_pct ≤
        (d - get_current_capital (reset_daily_limits 0 stateB)) / d * 100) ∧
      ((false : Bool) = false → TradeReason.dailyLossLimit (5/2) 2 = .dailyLossLimit
        ((d - get_current_capital (reset_daily_limits 0 stateB)) / d * 100)
        stateB.max_daily_loss_pct) ∧
      ((false : Bool) = true → TradeReason.dailyLossLimit (5/2) 2 = .tradingAllowed) :=
  can_trade_gate_spec 0 stateB false (.dailyLossLimit (5/2) 2)
    (by norm_num [can_trade, stateB, defaultState, reset_daily_limits, get_current_capital])

/-! ### C10 -/

/-- C10: while `dailyStartCapital` is still unset and the date has not
advanced past `lastResetDate`, `can_trade` raises (returns no verdict) -
the subtraction `dailyStartCapital − currentCapital` is a `TypeError` on
`None` - and so does `validate_trade` through it; the
`currentCapital()` fallback to `initialCapital` does not protect the
subtraction. -/
theorem can_trade_raises_on_unset_baseline (today : ℤ) (s : RiskState)
    (hnone : s.daily_start_capital = none) (hday : ¬ s.last_reset_date < today) :
    (can_trade today s).1 = none ∧
    get_current_capital s = s.initial_capital ∧
    ∀ sym shares price side, (validate_trade today s sym shares price side).1 = none := by
  have hid := reset_daily_limits_id hday
  have hct : (can_trade today s).1 = none := by
    unfold can_trade
    rw [hid]
    simp [hnone]
  refine ⟨hct, ?_, ?_⟩
  · unfold get_current_capital
    rw [hnone]
  · intro sym shares price side
    unfold validate_trade
    rcases hc : can_trade today s with ⟨og, s1⟩
    rcases og with _ | pair
    · rfl
    · rw [hc] at hct
      simp at hct

/-- Witness for C10: the freshly constructed default state on its
construction day. -/
theorem can_trade_raises_on_unset_baseline_witness :
    (can_trade 0 defaultState).1 = none ∧
    get_current_capital defaultState = defaultState.initial_capital ∧
    ∀ sym shares price side,
      (validate_trade 0 defaultState sym shares price side).1 = none :=
  can_trade_raises_on_unset_baseline 0 defaultState (by norm_num [defaultState])
    (by norm_num [defaultState])

/-! ### C4 -/

/-- With the baseline already set and no date advance, the equity sync
only rewrites `daily_pnl`. -/
lemma metrics_sync_equity_of_set (today : ℤ) (s : RiskState) (v : ℚ)
    (hv : s.daily_start_capital = some v) (hday : ¬ s.last_reset_date < today) :
    ∀ equity, (metrics_sync_equity today s equity).daily_start_capital = some v ∧
      (metrics_sync_equity today s equity).last_reset_date = s.last_reset_date := by
  have hid := reset_daily_limits_id (s := s) hday
  have hnotnone : ¬ s.daily_start_capital = none := by
    rw [hv]
    exact fun hc => Option.noConfusion hc
  intro equity
  rcases equity with _ | e
  · exact ⟨hv, rfl⟩
  · unfold metrics_sync_equity
    dsimp only
    rw [if_neg hnotnone, hid, if_neg hnotnone, hv]
    dsimp only
    exact ⟨rfl, rfl⟩

/-- The snapshot epilogue never changes the baseline when the date has
not advanced. -/
lemma metrics_snapshot_snd_of_no_advance (today : ℤ) (s2 : RiskState) (cc : ℚ)
    (hday : ¬ s2.last_reset_date < today) :
    ((metrics_snapshot today s2 cc).2).daily_start_capital = s2.daily_start_capital ∧
    ((metrics_snapshot today s2 cc).2).last_reset_date = s2.last_reset_date := by
  have hid := reset_daily_limits_id (s := s2) hday
  unfold metrics_snapshot
  rcases hd : s2.daily_start_capital with _ | d
  · exact ⟨hd, rfl⟩
  · dsimp only
    split_ifs with hz
    · exact ⟨hd, rfl⟩
    · rcases hexpo : get_portfolio_exposure s2 with _ | expo
      · exact ⟨hd, rfl⟩
      · rcases hct : can_trade today s2 with ⟨og, s3⟩
        have hs3 : s3 = s2 := by
          have := can_trade_snd today s2
          rw [hct, hid] at this
          exact this
        rcases og with _ | pair
        · dsimp only
          rw [hs3]
          exact ⟨hd, rfl⟩
        · dsimp only
          rw [hs3]
          exact ⟨hd, rfl⟩

/-- Once the baseline is set and the date has not advanced, no public
operation changes `daily_start_capital`. -/
lemma applyOp_preserves_daily_start (op : RiskOp) (today : ℤ) (s : RiskState) (v : ℚ)
    (hv : s.daily_start_capital = some v) (hday : ¬ s.last_reset_date < today) :
    (applyOp op today s).daily_start_capital = some v := by
  have hid := reset_daily_limits_id (s := s) hday
  cases op with
  | reset =>
    simp only [applyOp]
    rw [hid, hv]
  | canTradeOp =>
    simp only [applyOp]
    rw [can_trade_snd, hid, hv]
  | validateOp sym sh p side =>
    simp only [applyOp]
    rw [validate_trade_snd, hid, hv]
  | updateOp sym w =>
    simp only [applyOp]
    unfold update_position
    exact hv
  | closeOp sym pnl =>
    simp only [applyOp]
    unfold close_position
    exact hv
  | metricsOp live equity =>
    have hsync := metrics_sync_equity_of_set today s v hv hday equity
    simp only [applyOp]
    unfold get_risk_metrics
    rcases live with _ | lp
    · dsimp only
      have hsnap := metrics_snapshot_snd_of_no_advance today
        (metrics_sync_equity today s equity)
        (get_current_capital (metrics_sync_equity today s equity))
        (by rw [hsync.2]; exact hday)
      rw [hsnap.1, hsync.1]
    · dsimp only
      have hsnap := metrics_snapshot_snd_of_no_advance today
        { metrics_sync_equity today s equity with open_positions := lp }
        (get_current_capital (metrics_sync_equity today s equity))
        (by dsimp only; rw [hsync.2]; exact hday)
      rw [hsnap.1]
      dsimp only
      rw [hsync.1]

/-- C4 counterexample: a metrics query carrying live equity 9000 on the
construction day assigns `daily_start_capital` although the date did not
advance past `lastResetDate`, refuting "assigned exactly when the
current date advances past lastResetDate". -/
theorem daily_start_assigned_without_advance_cex :
    (applyOp (.metricsOp none (some 9000)) 0 defaultState).daily_start_capital
        ≠ defaultState.daily_start_capital ∧
    ¬ defaultState.last_reset_date < (0:ℤ) := by
  constructor
  · have hval : (applyOp (.metricsOp none (some 9000)) 0 defaultState).daily_start_capital
        = some 9000 := by
      norm_num [applyOp, get_risk_metrics, metrics_sync_equity, metrics_snapshot,
        defaultState, reset_daily_limits, get_current_capital, get_portfolio_exposure,
        can_trade]
    rw [hval]
    simp [defaultState]
  · norm_num [defaultState]

/-- C4 (amended): an operation changes `daily_start_capital` only if the
baseline was still unset (the live-equity seeding path of the metrics
query) or the operation's date advanced strictly past `lastResetDate`;
in particular, once set it is never changed within the same day. -/
theorem daily_start_capital_stability (op : RiskOp) (today : ℤ) (s : RiskState)
    (hchange : (applyOp op today s).daily_start_capital ≠ s.daily_start_capital) :
    s.daily_start_capital = none ∨ s.last_reset_date < today := by
  rcases hd : s.daily_start_capital with _ | v
  · exact Or.inl rfl
  · by_cases hday : s.last_reset_date < today
    · exact Or.inr hday
    · exact absurd (by rw [applyOp_preserves_daily_start op today s v hd hday, hd])
        hchange

/-- Witness for C4 (amended): the first daily reset of the default state
on day 1 sets the baseline, and indeed the date had advanced. -/
theorem daily_start_capital_stability_witness :
    defaultState.daily_start_capital = none ∨ defaultState.last_reset_date < 1 :=
  daily_start_capital_stability .reset 1 defaultState (by
    have hval : (applyOp .reset 1 defaultState).daily_start_capital = some 10000 := by
      norm_num [applyOp, reset_daily_limits, defaultState, get_current_capital]
    rw [hval]
    simp [defaultState])

/-! ### C6 -/

/-- C6: whenever `validate_trade` returns a verdict, the checks ran in
order - the `can_trade` gate first (its reason propagated on rejection),
then for buys the position-size-percentage check, then the
sufficient-capital check - the first failing check short-circuits with
its own reason, and the trade is accepted exactly when the gate is open
and, for buys, both remaining checks pass. -/
theorem validate_trade_spec (today : ℤ) (s : RiskState) (sym : String)
    (shares price : ℚ) (side : String) (ok : Bool) (reason : TradeReason)
    (h : (validate_trade today s sym shares price side).1 = some (ok, reason)) :
    ∃ (g : Bool) (gr : TradeReason) (s1 : RiskState),
      can_trade today s = (some (g, gr), s1) ∧
      (g = false → ok = false ∧ reason = gr) ∧
      (g = true → side ≠ "buy" → ok = true ∧ reason = .tradeValidated) ∧
      (g = true → side = "buy" →
        s1.max_position_size_pct < shares * price / get_current_capital s1 * 100 →
        ok = false ∧ reason = .positionSizeExceeds
          (shares * price / get_current_capital s1 * 100) s1.max_position_size_pct) ∧
      (g = true → side = "buy" →
        ¬ s1.max_position_size_pct < shares * price / get_current_capital s1 * 100 →
        get_current_capital s1 < shares * price →
        ok = false ∧ reason = .insufficientCapital (get_current_capital s1)
          (shares * price)) ∧
      (ok = true ↔ g = true ∧ (side = "buy" →
        shares * price / get_current_capital s1 * 100 ≤ s1.max_position_size_pct ∧
        shares * price ≤ get_current_capital s1)) := by
  rcases hc : can_trade today s with ⟨og, s1⟩
  simp only [validate_trade, hc] at h
  rcases og with _ | ⟨g, gr⟩
  · simp at h
  · refine ⟨g, gr, s1, rfl, ?_⟩
    rw [show (match ((some (g, gr) : Option (Bool × TradeReason)), s1) with
      | (none, s1) => ((none : Option (Bool × TradeReason)), s1)
      | (some (allowed, reason), s1) =>
        if (!allowed) = true then (some (false, reason), s1)
        else
          if side = "buy" then
            if get_current_capital s1 = 0 then (none, s1)
            else
              if s1.max_position_size_pct <
                  shares * price / get_current_capital s1 * 100 then
                (some (false, TradeReason.positionSizeExceeds
                  (shares * price / get_current_capital s1 * 100)
                  s1.max_position_size_pct), s1)
              else
                if get_current_capital s1 < shares * price then
                  (some (false, TradeReason.insufficientCapital
                    (get_current_capital s1) (shares * price)), s1)
                else (some (true, TradeReason.tradeValidated), s1)
          else (some (true, TradeReason.tradeValidated), s1)) =
      (if (!g) = true then (some (false, gr), s1)
        else
          if side = "buy" then
            if get_current_capital s1 = 0 then (none, s1)
            else
              if s1.max_position_size_pct <
                  shares * price / get_current_capital s1 * 100 then
                (some (false, TradeReason.positionSizeExceeds
                  (shares * price / get_current_capital s1 * 100)
                  s1.max_position_size_pct), s1)
              else
                if get_current_capital s1 < shares * price then
                  (some (false, TradeReason.insufficientCapital
                    (get_current_capital s1) (shares * price)), s1)
                else (some (true, TradeReason.tradeValidated), s1)
          else (some (true, TradeReason.tradeValidated), s1)) from rfl] at h
    by_cases hg : g = true
    · subst hg
      rw [if_neg (show ¬((!true) = true) by simp)] at h
      by_cases hside : side = "buy"
      · rw [if_pos hside] at h
        by_cases hcc : get_current_capital s1 = 0
        · rw [if_pos hcc] at h
          simp at h
        · rw [if_neg hcc] at h
          by_cases hpct : s1.max_position_size_pct <
              shares * price / get_current_capital s1 * 100
          · rw [if_pos hpct] at h
            simp only [Option.some.injEq, Prod.mk.injEq] at h
            obtain ⟨hok, hreason⟩ := h
            subst hok
            subst hreason
            refine ⟨by simp, fun _ hcontra => absurd hside hcontra,
              fun _ _ _ => ⟨rfl, rfl⟩, fun _ _ hnpct _ => absurd hpct hnpct, ?_⟩
            constructor
            · intro hcontra
              simp at hcontra
            · rintro ⟨-, hchecks⟩
              exact absurd hpct (not_lt.2 (hchecks hside).1)
          · rw [if_neg hpct] at h
            by_cases hcap : get_current_capital s1 < shares * price
            · rw [if_pos hcap] at h
              simp only [Option.some.injEq, Prod.mk.injEq] at h
              obtain ⟨hok, hreason⟩ := h
              subst hok
              subst hreason
              refine ⟨by simp, fun _ hcontra => absurd hside hcontra,
                fun _ _ hpct2 => absurd hpct2 hpct, fun _ _ _ _ => ⟨rfl, rfl⟩, ?_⟩
              constructor
              · intro hcontra
                simp at hcontra
              · rintro ⟨-, hchecks⟩
                exact absurd hcap (not_lt.2 (hchecks hside).2)
            · rw [if_neg hcap] at h
              simp only [Option.some.injEq, Prod.mk.injEq] at h
              obtain ⟨hok, hreason⟩ := h
              subst hok
              subst hreason
              exact ⟨by simp, fun _ hcontra => absurd hside hcontra,
                fun _ _ hpct2 => absurd hpct2 hpct,
                fun _ _ _ hcap2 => absurd hcap2 hcap,
                ⟨fun _ => ⟨rfl, fun _ => ⟨not_lt.1 hpct, not_lt.1 hcap⟩⟩, fun _ => rfl⟩⟩
      · rw [if_neg hside] at h
        simp only [Option.some.injEq, Prod.mk.injEq] at h
        obtain ⟨hok, hreason⟩ := h
        subst hok
        subst hreason
        exact ⟨by simp, fun _ _ => ⟨rfl, rfl⟩,
          fun _ hcontra => absurd hcontra hside,
          fun _ hcontra => absurd hcontra hside,
          ⟨fun _ => ⟨rfl, fun hcontra => absurd hcontra hside⟩, fun _ => rfl⟩⟩
    · rw [Bool.not_eq_true] at hg
      subst hg
      rw [if_pos (show (!false) = true by simp)] at h
      simp only [Option.some.injEq, Prod.mk.injEq] at h
      obtain ⟨hok, hreason⟩ := h
      subst hok
      subst hreason
      refine ⟨fun _ => ⟨rfl, rfl⟩, by simp, by simp, by simp, ?_⟩
      constructor
      · intro hcontra
        simp at hcontra
      · rintro ⟨hcontra, -⟩
        simp at hcontra

/-- Witness for C6: buy of 5 shares at 100 against capital 10000 with a
5% limit passes all three checks. -/
theorem validate_trade_spec_witness :
    ∃ (g : Bool) (gr : TradeReason) (s1 : RiskState),
      can_trade 0 stateV = (some (g, gr), s1) ∧
      (g = false → (true : Bool) = false ∧ TradeReason.tradeValidated = gr) ∧
      (g = true → "buy" ≠ "buy" →
        (true : Bool) = true ∧ TradeReason.tradeValidated = .tradeValidated) ∧
      (g = true → "buy" = "buy" →
        s1.max_position_size_pct < (5:ℚ) * 100 / get_current_capital s1 * 100 →
        (true : Bool) = false ∧ TradeReason.tradeValidated = .positionSizeExceeds
          ((5:ℚ) * 100 / get_current_capital s1 * 100) s1.max_position_size_pct) ∧
      (g = true → "buy" = "buy" →
        ¬ s1.max_position_size_pct < (5:ℚ) * 100 / get_current_capital s1 * 100 →
        get_current_capital s1 < (5:ℚ) * 100 →
        (true : Bool) = false ∧ TradeReason.tradeValidated = .insufficientCapital
          (get_current_capital s1) ((5:ℚ) * 100)) ∧
      ((true : Bool) = true ↔ g = true ∧ ("buy" = "buy" →
        (5:ℚ) * 100 / get_current_capital s1 * 100 ≤ s1.max_position_size_pct ∧
        (5:ℚ) * 100 ≤ get_current_capital s1)) :=
  validate_trade_spec 0 stateV "AAPL" 5 100 "buy" true .tradeValidated
    (by norm_num [validate_trade, can_trade, stateV, defaultState,
      reset_daily_limits, get_current_capital])

/-! ### C3 -/

/-- An environment for a faulting cycle: the default (fresh) risk state
raises in the gate, so the whole cycle raises. -/
def faultEnv : CycleEnv :=
  { today := 0
    is_running := true
    is_trading := true
    has_w3 := false
    swap_success := true
    monitor_positions_data := []
    assets := []
    balance_eth := 1 }

/-- C3: a cycle fault is caught at the cycle boundary, logged, and
followed by a fixed 5-unit backoff after which the loop continues with
the next iteration; and the loop halts only at an iteration whose
running flag was cleared by `stop()` - a fault alone never produces the
halt event. -/
theorem agent_loop_fault_policy :
    (∀ (env : CycleEnv) (rest : List (Bool × CycleEnv)) (s s1 : RiskState),
       run_cycle env s = (none, s1) →
       agentLoop ((true, env) :: rest) s =
         (.cycleFaulted :: .slept 5 :: (agentLoop rest s1).1,
          (agentLoop rest s1).2)) ∧
    (∀ (envs : List (Bool × CycleEnv)) (s : RiskState),
       LoopEvent.halted ∈ (agentLoop envs s).1 →
       ∃ pre env post, envs = pre ++ (false, env) :: post) := by
  constructor
  · intro env rest s s1 h
    conv_lhs => unfold agentLoop
    rw [if_neg (show ¬(¬true = true) by simp), h]
  · intro envs
    induction envs with
    | nil =>
      intro s hmem
      simp [agentLoop] at hmem
    | cons hd tl ih =>
      intro s hmem
      rcases hd with ⟨running, env⟩
      by_cases hr : running = true
      · subst hr
        unfold agentLoop at hmem
        rw [if_neg (show ¬(¬true = true) by simp)] at hmem
        rcases hrc : run_cycle env s with ⟨res, s1⟩
        rw [hrc] at hmem
        rcases res with _ | evs
        · simp only [List.mem_cons] at hmem
          rcases hmem with h1 | h1 | h1
          · exact absurd h1 (by simp)
          · exact absurd h1 (by simp)
          · obtain ⟨pre, env2, post, hsplit⟩ := ih s1 h1
            exact ⟨(true, env) :: pre, env2, post, by rw [hsplit, List.cons_append]⟩
        · simp only [List.mem_cons] at hmem
          rcases hmem with h1 | h1 | h1
          · exact absurd h1 (by simp)
          · exact absurd h1 (by simp)
          · obtain ⟨pre, env2, post, hsplit⟩ := ih s1 h1
            exact ⟨(true, env) :: pre, env2, post, by rw [hsplit, List.cons_append]⟩
      · rw [Bool.not_eq_true] at hr
        subst hr
        exact ⟨[], env, tl, rfl⟩

/-- Witness for C3: a cycle over the fresh default state raises at the
gate; the loop logs the fault, backs off 5 units and goes on. -/
theorem agent_loop_fault_policy_witness :
    agentLoop [(true, faultEnv)] defaultState =
      (.cycleFaulted :: .slept 5 :: (agentLoop [] defaultState).1,
       (agentLoop [] defaultState).2) :=
  agent_loop_fault_policy.1 faultEnv [] defaultState defaultState (by
    norm_num [run_cycle, monitor_positions, can_trade, reset_daily_limits,
      defaultState, faultEnv])

/-! ### C7 -/

/-- Shape of a non-raising per-asset iteration: a Hold log, or one
analysis event, an optional swap event and one trade-result event. -/
lemma processAsset_some_shape (env : CycleEnv) (a : AssetInput) (s : RiskState)
    (evs : List Event) (s1 : RiskState)
    (h : processAsset env a s = (some evs, s1)) :
    (evs = [.analyzing a.symbol, .held a.symbol] ∧ s1 = s) ∨
    (∃ (st : ExecStatus) (swapEvs : List Event),
      (swapEvs = [] ∨ swapEvs = [Event.onChainSwap a.symbol]) ∧
      evs = [.analyzing a.symbol] ++ swapEvs ++ [.tradeResult a.symbol st]) := by
  simp only [processAsset] at h
  by_cases hhold : (signalOf a.sentiment).1 = "Hold"
  · rw [if_pos hhold] at h
    simp only [Prod.mk.injEq, Option.some.injEq] at h
    exact Or.inl ⟨h.1.symm, h.2.symm⟩
  · rw [if_neg hhold] at h
    by_cases hswap : a.type_is_crypto = true ∧ env.has_w3 = true
    · rw [if_pos hswap] at h
      by_cases hsucc : env.swap_success = true
      · rw [if_pos hsucc] at h
        dsimp only at h
        rcases hex : execute_trade env.today env.is_trading s a.symbol
            (signalOf a.sentiment).1 (signalOf a.sentiment).2 a.price a.order_ok
          with ⟨res, s2⟩
        rw [hex] at h
        rcases res with _ | r
        · simp at h
        · simp only [Prod.mk.injEq, Option.some.injEq] at h
          exact Or.inr ⟨r.status, [Event.onChainSwap a.symbol], Or.inr rfl, h.1.symm⟩
      · rw [if_neg hsucc] at h
        simp at h
    · rw [if_neg hswap] at h
      dsimp only at h
      rcases hex : execute_trade env.today env.is_trading s a.symbol
          (signalOf a.sentiment).1 (signalOf a.sentiment).2 a.price a.order_ok
        with ⟨res, s2⟩
      rw [hex] at h
      rcases res with _ | r
      · simp at h
      · simp only [Prod.mk.injEq, Option.some.injEq] at h
        exact Or.inr ⟨r.status, [], Or.inl rfl, by rw [← h.1]⟩

/-- C7: a per-asset iteration that yields a result (in particular every
price-fetch failure, zero computed size, validation rejection and order
failure, which the executor converts into error/skipped/rejected
statuses rather than exceptions) never aborts the pass - the loop goes
straight on to the remaining assets - and each asset is analyzed exactly
once per cycle, never retried. -/
theorem per_asset_failure_isolation :
    (∀ (env : CycleEnv) (a : AssetInput) (rest : List AssetInput)
       (s : RiskState) (evs : List Event) (s1 : RiskState),
       env.is_running = true →
       processAsset env a s = (some evs, s1) →
       processAssets env (a :: rest) s =
         ((processAssets env rest s1).1.map (fun t => evs ++ t),
          (processAssets env rest s1).2)) ∧
    (∀ env a s evs s1, processAsset env a s = (some evs, s1) →
       evs.count (.analyzing a.symbol) = 1) ∧
    (∀ (today : ℤ) (s : RiskState) (sym sig : String) (c : ℚ) (ok : Bool),
       sig ≠ "Hold" →
       (execute_trade today true s sym sig c none ok).1
         = some ⟨.error, .priceUnavailable⟩) ∧
    (∀ (today : ℤ) (s : RiskState) (sym sig : String) (c p : ℚ) (ok : Bool),
       sig ≠ "Hold" → ¬ p = 0 →
       (calculate_position_size s sym c p).1 = 0 →
       (execute_trade today true s sym sig c (some p) ok).1
         = some ⟨.skipped, .positionTooSmall⟩) ∧
    (∀ (today : ℤ) (s : RiskState) (sym sig : String) (c p : ℚ) (ok : Bool)
       (r : TradeReason) (s1 : RiskState),
       sig ≠ "Hold" → ¬ p = 0 →
       ¬ (calculate_position_size s sym c p).1 = 0 →
       validate_trade today s sym (calculate_position_size s sym c p).1 p
         (if sig = "Buy" then "buy" else "sell") = (some (false, r), s1) →
       execute_trade today true s sym sig c (some p) ok
         = (some ⟨.rejected, .validationFailed r⟩, s1)) ∧
    (∀ (today : ℤ) (s : RiskState) (sym sig : String) (c p : ℚ)
       (r : TradeReason) (s1 : RiskState),
       sig ≠ "Hold" → ¬ p = 0 →
       ¬ (calculate_position_size s sym c p).1 = 0 →
       validate_trade today s sym (calculate_position_size s sym c p).1 p
         (if sig = "Buy" then "buy" else "sell") = (some (true, r), s1) →
       execute_trade today true s sym sig c (some p) false
         = (some ⟨.error, .orderFailed⟩, s1)) := by
  refine ⟨?_, ?_, ?_, ?_, ?_, ?_⟩
  · intro env a rest s evs s1 hrun hpa
    conv_lhs => unfold processAssets
    rw [if_neg (by rw [hrun]; simp), hpa]
    change (match processAssets env rest s1 with
            | (none, s2) => ((none : Option (List Event)), s2)
            | (some evs2, s2) => (some (evs ++ evs2), s2)) = _
    rcases hrec : processAssets env rest s1 with ⟨r2, s2⟩
    rcases r2 with _ | evs2
    · simp
    · simp
  · intro env a s evs s1 h
    rcases processAsset_some_shape env a s evs s1 h with ⟨hevs, -⟩ | ⟨st, swapEvs, hse, hevs⟩
    · subst hevs
      simp [List.count_cons]
    · subst hevs
      rcases hse with hse | hse <;> subst hse <;> simp [List.count_cons]
  · intro today s sym sig c ok hsig
    simp [execute_trade, hsig]
  · intro today s sym sig c p ok hsig hp hzero
    simp [execute_trade, hsig, hp, hzero]
  · intro today s sym sig c p ok r s1 hsig hp hnz hval
    simp [execute_trade, hsig, hp, hnz, hval]
  · intro today s sym sig c p r s1 hsig hp hnz hval
    simp [execute_trade, hsig, hp, hnz, hval]

/-- An asset whose signal source reports neutral sentiment: the decision
rule holds it. -/
def assetHold : AssetInput :=
  { symbol := "BTC/USD"
    type_is_crypto := true
    sentiment := "Neutral"
    price := none
    order_ok := true }

/-- Witness for C7: a held asset's iteration completes and the pass
continues with the remaining assets; a missing price yields the error
status instead of an exception. -/
theorem per_asset_failure_isolation_witness :
    processAssets faultEnv [assetHold] defaultState =
      ((processAssets faultEnv [] defaultState).1.map
        (fun t => [Event.analyzing "BTC/USD", Event.held "BTC/USD"] ++ t),
       (processAssets faultEnv [] defaultState).2) ∧
    (execute_trade 0 true defaultState "BTC/USD" "Buy" (85/100) none true).1
      = some ⟨.error, .priceUnavailable⟩ :=
  ⟨per_asset_failure_isolation.1 faultEnv assetHold [] defaultState
      [Event.analyzing "BTC/USD", Event.held "BTC/USD"] defaultState rfl
      (by simp [processAsset, signalOf, assetHold]),
   per_asset_failure_isolation.2.2.1 0 defaultState "BTC/USD" "Buy" (85/100) true
      (by simp)⟩

/-! ### C8 -/

/-- Events of one position's monitor turn are risk-monitor-phase events. -/
lemma monitor_position_phase (s : RiskState) (p : LivePosition) :
    ∀ e ∈ (monitor_position s p).1, phase e = 0 := by
  intro e he
  unfold monitor_position at he
  split_ifs at he with h1 h2
  · simp only [List.mem_singleton] at he
    subst he
    rfl
  · simp only [List.mem_singleton] at he
    subst he
    rfl
  · simp at he

/-- Events of the whole monitor pass are risk-monitor-phase events. -/
lemma monitor_positions_phase :
    ∀ (ps : List LivePosition) (s : RiskState) (e : Event),
      e ∈ (monitor_positions ps s).1 → phase e = 0 := by
  intro ps
  induction ps with
  | nil =>
    intro s e he
    simp [monitor_positions] at he
  | cons p rest ih =>
    intro s e he
    simp only [monitor_positions] at he
    rcases List.mem_append.1 he with h1 | h1
    · exact monitor_position_phase s p e h1
    · exact ih _ e h1

/-- Events of a completed per-asset iteration are execution-phase
events. -/
lemma processAsset_phase (env : CycleEnv) (a : AssetInput) (s : RiskState)
    (evs : List Event) (s1 : RiskState)
    (h : processAsset env a s = (some evs, s1)) : ∀ e ∈ evs, phase e = 3 := by
  rcases processAsset_some_shape env a s evs s1 h with ⟨hevs, -⟩ | ⟨st, swapEvs, hse, hevs⟩
  · subst hevs
    intro e he
    rcases List.mem_cons.1 he with rfl | he2
    · rfl
    · rcases List.mem_singleton.1 he2 with rfl
      rfl
  · subst hevs
    intro e he
    rcases hse with rfl | rfl
    · simp at he
      rcases he with rfl | rfl <;> rfl
    · simp at he
      rcases he with rfl | rfl | rfl <;> rfl

/-- Events of a completed per-asset pass are execution-phase events. -/
lemma processAssets_phase (env : CycleEnv) :
    ∀ (l : List AssetInput) (s : RiskState) (evs : List Event) (s1 : RiskState),
      processAssets env l s = (some evs, s1) → ∀ e ∈ evs, phase e = 3 := by
  intro l
  induction l with
  | nil =>
    intro s evs s1 h e he
    simp only [processAssets, Prod.mk.injEq, Option.some.injEq] at h
    rw [← h.1] at he
    simp at he
  | cons a rest ih =>
    intro s evs s1 h e he
    unfold processAssets at h
    by_cases hrun : env.is_running = true
    · rw [if_neg (show ¬¬(env.is_running = true) by simp [hrun])] at h
      rcases hpa : processAsset env a s with ⟨r1, s2⟩
      rw [hpa] at h
      rcases r1 with _ | evs1
      · simp at h
      · change (match processAssets env rest s2 with
                | (none, s3) => ((none : Option (List Event)), s3)
                | (some evs2, s3) => (some (evs1 ++ evs2), s3)) = (some evs, s1) at h
        rcases hrec : processAssets env rest s2 with ⟨r2, s3⟩
        rw [hrec] at h
        rcases r2 with _ | evs2
        · simp at h
        · simp only [Prod.mk.injEq, Option.some.injEq] at h
          rw [← h.1] at he
          rcases List.mem_append.1 he with h1 | h1
          · exact processAsset_phase env a s evs1 s2 hpa e h1
          · exact ih s2 evs2 s3 hrec e h1
    · rw [if_pos (show ¬(env.is_running = true) by simp [hrun])] at h
      simp only [Prod.mk.injEq, Option.some.injEq] at h
      rw [← h.1] at he
      simp at he

/-- Constant-phase lists are sorted by phase. -/
lemma pairwise_phase_const {l : List Event} {c : ℕ} (h : ∀ e ∈ l, phase e = c) :
    l.Pairwise (fun e1 e2 => phase e1 ≤ phase e2) := by
  induction l with
  | nil => exact List.Pairwise.nil
  | cons x xs ih =>
    refine List.Pairwise.cons ?_ (ih fun e he => h e (List.mem_cons_of_mem x he))
    intro y hy
    rw [h x (List.mem_cons_self x xs), h y (List.mem_cons_of_mem x hy)]

/-- Four consecutive constant-phase blocks with nondecreasing phases are
sorted by phase. -/
lemma pairwise_phase_blocks (l0 l1 l2 l3 : List Event) (c0 c1 c2 c3 : ℕ)
    (h0 : ∀ e ∈ l0, phase e = c0) (h1 : ∀ e ∈ l1, phase e = c1)
    (h2 : ∀ e ∈ l2, phase e = c2) (h3 : ∀ e ∈ l3, phase e = c3)
    (hc01 : c0 ≤ c1) (hc12 : c1 ≤ c2) (hc23 : c2 ≤ c3) :
    (l0 ++ l1 ++ l2 ++ l3).Pairwise (fun e1 e2 => phase e1 ≤ phase e2) := by
  refine List.pairwise_append.2 ⟨List.pairwise_append.2 ⟨List.pairwise_append.2
    ⟨pairwise_phase_const h0, pairwise_phase_const h1, ?_⟩,
    pairwise_phase_const h2, ?_⟩, pairwise_phase_const h3, ?_⟩
  · intro e0 he0 e1 he1
    rw [h0 e0 he0, h1 e1 he1]
    exact hc01
  · intro e he e2 he2
    rcases List.mem_append.1 he with h | h
    · rw [h0 e h, h2 e2 he2]
      exact le_trans hc01 hc12
    · rw [h1 e h, h2 e2 he2]
      exact hc12
  · intro e he e3 he3
    rcases List.mem_append.1 he with h | h
    · rcases List.mem_append.1 h with h0m | h1m
      · rw [h0 e h0m, h3 e3 he3]
        exact le_trans hc01 (le_trans hc12 hc23)
      · rw [h1 e h1m, h3 e3 he3]
        exact le_trans hc12 hc23
    · rw [h2 e h, h3 e3 he3]
      exact hc23

/-- C8: in every completed cycle the emitted events are ordered by
phase - risk monitor, then rebalance check, then the daily gate, then
any per-asset execution (in particular every order submission) - and a
closed gate ends the cycle normally right after the gate: the skip is
logged with the gate's reason, no execution-phase event occurs and no
fault is raised. -/
theorem run_cycle_phase_order :
    (∀ (env : CycleEnv) (s : RiskState) (evs : List Event),
       (run_cycle env s).1 = some evs →
       evs.Pairwise (fun e1 e2 => phase e1 ≤ phase e2)) ∧
    (∀ (env : CycleEnv) (s : RiskState) (r : TradeReason) (s2 : RiskState),
       can_trade env.today (monitor_positions env.monitor_positions_data s).2
         = (some (false, r), s2) →
       run_cycle env s =
         (some ((Event.monitorStart :: (monitor_positions env.monitor_positions_data s).1)
            ++ [.rebalanceCheck] ++ [.gateChecked, .tradingSkipped r]), s2) ∧
       ∀ e ∈ (Event.monitorStart :: (monitor_positions env.monitor_positions_data s).1)
            ++ [.rebalanceCheck] ++ [.gateChecked, .tradingSkipped r], phase e ≤ 2) := by
  have hmon : ∀ (env : CycleEnv) (s : RiskState) (e : Event),
      e ∈ Event.monitorStart :: (monitor_positions env.monitor_positions_data s).1 →
      phase e = 0 := by
    intro env s e he
    rcases List.mem_cons.1 he with rfl | he2
    · rfl
    · exact monitor_positions_phase _ _ e he2
  constructor
  · intro env s evs h
    simp only [run_cycle] at h
    rcases hct : can_trade env.today (monitor_positions env.monitor_positions_data s).2
      with ⟨og, s2⟩
    rw [hct] at h
    rcases og with _ | ⟨allowed, reason⟩
    · simp at h
    · by_cases hallow : allowed = true
      · subst hallow
        replace h : (if ¬(true : Bool) = true then
            (some ((Event.monitorStart :: (monitor_positions env.monitor_positions_data s).1)
              ++ [Event.rebalanceCheck] ++ [Event.gateChecked, Event.tradingSkipped reason]),
             s2)
          else
            match processAssets env env.assets s2 with
            | (none, s4) => ((none : Option (List Event)), s4)
            | (some aEvs, s3) =>
              (some ((Event.monitorStart :: (monitor_positions env.monitor_positions_data s).1)
                ++ [Event.rebalanceCheck] ++ [Event.gateChecked] ++ aEvs
                ++ if env.balance_eth < 1/20 then [Event.lowGasWarning] else []), s3)).1
          = some evs := h
        rw [if_neg (show ¬¬((true : Bool) = true) by simp)] at h
        rcases hpa : processAssets env env.assets s2 with ⟨ra, s3⟩
        rw [hpa] at h
        rcases ra with _ | aEvs
        · simp at h
        · replace h : some ((Event.monitorStart ::
              (monitor_positions env.monitor_positions_data s).1)
              ++ [Event.rebalanceCheck] ++ [Event.gateChecked] ++ aEvs
              ++ (if env.balance_eth < 1/20 then [Event.lowGasWarning] else []))
            = some evs := h
          simp only [Option.some.injEq] at h
          subst h
          have hblocks := pairwise_phase_blocks
            (Event.monitorStart :: (monitor_positions env.monitor_positions_data s).1)
            [Event.rebalanceCheck] [Event.gateChecked]
            (aEvs ++ (if env.balance_eth < 1/20 then [Event.lowGasWarning] else []))
            0 1 2 3 (hmon env s) (by intro e he; rcases List.mem_singleton.1 he with rfl; rfl)
            (by intro e he; rcases List.mem_singleton.1 he with rfl; rfl)
            (by
              intro e he
              rcases List.mem_append.1 he with h1 | h1
              · exact processAssets_phase env env.assets s2 aEvs s3 hpa e h1
              · split_ifs at h1
                · rcases List.mem_singleton.1 h1 with rfl
                  rfl
                · simp at h1)
            (by norm_num) (by norm_num) (by norm_num)
          simpa [List.append_assoc] using hblocks
      · rw [Bool.not_eq_true] at hallow
        subst hallow
        replace h : (if ¬(false : Bool) = true then
            (some ((Event.monitorStart :: (monitor_positions env.monitor_positions_data s).1)
              ++ [Event.rebalanceCheck] ++ [Event.gateChecked, Event.tradingSkipped reason]),
             s2)
          else
            match processAssets env env.assets s2 with
            | (none, s4) => ((none : Option (List Event)), s4)
            | (some aEvs, s3) =>
              (some ((Event.monitorStart :: (monitor_positions env.monitor_positions_data s).1)
                ++ [Event.rebalanceCheck] ++ [Event.gateChecked] ++ aEvs
                ++ if env.balance_eth < 1/20 then [Event.lowGasWarning] else []), s3)).1
          = some evs := h
        rw [if_pos (show ¬((false : Bool) = true) by simp)] at h
        simp only [Option.some.injEq] at h
        subst h
        have hblocks := pairwise_phase_blocks
          (Event.monitorStart :: (monitor_positions env.monitor_positions_data s).1)
          [Event.rebalanceCheck] [Event.gateChecked, Event.tradingSkipped reason] []
          0 1 2 2 (hmon env s) (by intro e he; rcases List.mem_singleton.1 he with rfl; rfl)
          (by
            intro e he
            rcases List.mem_cons.1 he with rfl | he2
            · rfl
            · rcases List.mem_singleton.1 he2 with rfl
              rfl)
          (by intro e he; simp at he)
          (by norm_num) (by norm_num) (by norm_num)
        simpa [List.append_assoc] using hblocks
  · intro env s r s2 hct
    constructor
    · have hstep : run_cycle env s =
          (if ¬(false : Bool) = true then
            (some ((Event.monitorStart :: (monitor_positions env.monitor_positions_data s).1)
              ++ [Event.rebalanceCheck] ++ [Event.gateChecked, Event.tradingSkipped r]),
             s2)
          else
            match processAssets env env.assets s2 with
            | (none, s4) => ((none : Option (List Event)), s4)
            | (some aEvs, s3) =>
              (some ((Event.monitorStart :: (monitor_positions env.monitor_positions_data s).1)
                ++ [Event.rebalanceCheck] ++ [Event.gateChecked] ++ aEvs
                ++ if env.balance_eth < 1/20 then [Event.lowGasWarning] else []), s3)) := by
        simp only [run_cycle, hct]
      rw [hstep, if_pos (show ¬((false : Bool) = true) by simp)]
    · intro e he
      rcases List.mem_append.1 he with h1 | h1
      · rcases List.mem_append.1 h1 with h2 | h2
        · rw [hmon env s e h2]
          norm_num
        · rcases List.mem_singleton.1 h2 with rfl
          norm_num [phase]
      · rcases List.mem_cons.1 h1 with rfl | h2
        · norm_num [phase]
        · rcases List.mem_singleton.1 h2 with rfl
          norm_num [phase]

/-- Witness for C8: a cycle in the losing state (2.5% daily loss against
a 2% limit) with no live positions runs the monitor, the rebalance
check, the gate, and then skips with the daily-loss reason. -/
theorem run_cycle_phase_order_witness :
    run_cycle faultEnv stateB =
      (some ((Event.monitorStart :: (monitor_positions faultEnv.monitor_positions_data stateB).1)
        ++ [.rebalanceCheck] ++ [.gateChecked, .tradingSkipped (.dailyLossLimit (5/2) 2)]),
       stateB) ∧
    ∀ e ∈ (Event.monitorStart :: (monitor_positions faultEnv.monitor_positions_data stateB).1)
        ++ [.rebalanceCheck] ++ [.gateChecked, .tradingSkipped (.dailyLossLimit (5/2) 2)],
      phase e ≤ 2 :=
  run_cycle_phase_order.2 faultEnv stateB (.dailyLossLimit (5/2) 2) stateB (by
    norm_num [can_trade, monitor_positions, faultEnv, stateB, defaultState,
      reset_daily_limits, get_current_capital])

end TradingBot
